import Mathlib

/-!
Verification development for the sqlmap scan-task orchestrator of
`toolkit/sqlmap.py` (whiterabbit-mcp).

The Python module is shallowly embedded as follows:

* the output buffer is modelled as a `List String` of lines — the Python code
  builds `tasks[id]["output"]` exclusively by appending `line + "\n"` for
  rstripped lines, so the buffer is exactly a sequence of newline-free lines;
* each regular-expression pattern of `parse_scan_results_from_output` is
  embedded at line granularity as an executable matcher over `List Char`
  (the canonical sqlmap shapes the patterns were written for never span a
  single pattern element across lines);
* Python dictionaries of heterogeneous finding records become a `Finding`
  structure with optional fields, where an absent dictionary key is `none`
  (matching `dict.get`, which yields `None` for an absent key);
* the coroutine `run_sqlmap_scan` becomes a trace of task-record states,
  one state per suspension point (`await`), which is exactly the set of
  states another asyncio task can observe, since between two awaits the
  single-threaded event loop runs the coroutine atomically;
* monotonic clock values become `Int`; machine floats appear only as opaque
  rendered strings (no claim computes with them).
-/

namespace Sqlmap

/-! ### Python-style character and string primitives -/

/-- Python `\s` (`str.split()` / `str.strip()` whitespace): space, tab,
newline, carriage return, vertical tab, form feed. -/
def isSpaceChar (c : Char) : Bool :=
  c = ' ' || c = Char.ofNat 9 || c = Char.ofNat 10 || c = Char.ofNat 13 ||
  c = Char.ofNat 11 || c = Char.ofNat 12

/-- Regex `\w`: letters, digits, underscore (ASCII view suffices here). -/
def isWordChar (c : Char) : Bool := c.isAlphanum || c = Char.ofNat 95

/-- The ASCII single-quote character used by the sqlmap patterns. -/
def quoteChar : Char := Char.ofNat 39

/-- The ASCII closing-parenthesis character. -/
def rparChar : Char := Char.ofNat 41

/-- Index of the first occurrence of `pat` in a character list, scanning left
to right exactly as Python `in` / `re` position scanning does. -/
def findSubIdx : List Char → List Char → Option Nat
  | [], pat => if pat.isEmpty then some 0 else none
  | c :: rest, pat =>
    if pat.isPrefixOf (c :: rest) then some 0
    else (findSubIdx rest pat).map (· + 1)

/-- Python `pat in s` substring test. -/
def strContains (s pat : String) : Bool := (findSubIdx s.data pat.data).isSome

/-- Strip the characters satisfying `p` from both ends (Python `str.strip`). -/
def pyStripChars (p : Char → Bool) (s : String) : String :=
  String.mk (((s.data.dropWhile p).reverse.dropWhile p).reverse)

/-- Python `str.strip()` (whitespace on both ends). -/
def pyStrip (s : String) : String := pyStripChars isSpaceChar s

/-- Python `str.strip("'")`. -/
def stripQuotes (s : String) : String := pyStripChars (fun c => c = quoteChar) s

/-- Worker for `pySplit`; `acc` holds the current word reversed. -/
def pySplitAux : List Char → List Char → List String
  | [], acc => if acc.isEmpty then [] else [String.mk acc.reverse]
  | c :: rest, acc =>
    if isSpaceChar c then
      if acc.isEmpty then pySplitAux rest []
      else String.mk acc.reverse :: pySplitAux rest []
    else pySplitAux rest (c :: acc)

/-- Python `str.split()`: split on whitespace runs, dropping empty pieces. -/
def pySplit (s : String) : List String := pySplitAux s.data []

/-- Python `" ".join(parts)`. -/
def joinSpace : List String → String
  | [] => ""
  | [s] => s
  | s :: rest => s ++ " " ++ joinSpace rest

/-- Worker for `pyReplace`: replace every occurrence of `pat` left to right;
the fuel argument (instantiated with the list length, enough since every step
consumes at least one character) keeps the recursion structural. -/
def replaceAllAux (pat sub : List Char) : Nat → List Char → List Char
  | 0, l => l
  | Nat.succ fuel, l =>
    match l with
    | [] => []
    | c :: rest =>
      if !pat.isEmpty && pat.isPrefixOf (c :: rest) then
        sub ++ replaceAllAux pat sub fuel ((c :: rest).drop pat.length)
      else c :: replaceAllAux pat sub fuel rest

/-- Python `s.replace(pat, sub)` (all occurrences). -/
def pyReplace (s pat sub : String) : String :=
  String.mk (replaceAllAux pat.data sub.data s.data.length s.data)

/-! ### Findings

A finding is one of the Python dictionaries appended to `results` (or to
`tasks[id]["vulnerabilities"]`).  The shapes occurring in the source are
`{parameter, type, title, payload}`, `{parameter, type}`, and `{type, info}`;
an absent key is `none`. -/

structure Finding where
  parameter : Option String := none
  type : String
  title : Option String := none
  payload : Option String := none
  info : Option String := none
deriving DecidableEq, Repr

/-! ### Stage 1: structured-block extraction

Embeds, at line granularity, the pattern
`Parameter: (.+?) \(.+?\)\n((?:\s+Type: .+?\n\s+Title: .+?\n\s+Payload: .+?\n)+)`
and the inner pattern `\s+Type: (.+?)\n\s+Title: (.+?)\n\s+Payload: (.+?)\n`:
a header line holding `Parameter: <p> (<kind>)` with the closing parenthesis
at the end of the line, followed by one or more consecutive indented
`Type:`/`Title:`/`Payload:` line triples. -/

/-- Match `Parameter: (.+?) \(.+?\)` against one line (first occurrence of
`Parameter: `, lazily delimited parameter name before the first ` (`,
nonempty parenthesised kind, closing parenthesis ending the line). -/
def matchParamHeader (line : String) : Option String :=
  match findSubIdx line.data ("Parameter: ".data) with
  | none => none
  | some i =>
    let rest := line.data.drop (i + 11)
    match findSubIdx rest (" (".data) with
    | none => none
    | some j =>
      if 1 ≤ j ∧ j + 4 ≤ rest.length ∧ rest.getLast? = some rparChar then
        some (String.mk (rest.take j))
      else none

/-- Match `\s+<tag>(.+?)\n` against one line: at least one leading whitespace
character, the tag, then a nonempty remainder (the capture). -/
def matchTagged (tag : String) (line : String) : Option String :=
  let ws := line.data.takeWhile isSpaceChar
  if ws.isEmpty then none
  else
    let rest := line.data.drop ws.length
    if tag.data.isPrefixOf rest then
      let r := rest.drop tag.data.length
      if r.isEmpty then none else some (String.mk r)
    else none

/-- One `Type:`/`Title:`/`Payload:` sub-record spread over three lines. -/
def tripleAt (a b c : String) : Option (String × String × String) :=
  match matchTagged "Type: " a, matchTagged "Title: " b, matchTagged "Payload: " c with
  | some t, some ti, some p => some (t, ti, p)
  | _, _, _ => none

/-- Greedily consume the maximal run of consecutive sub-record triples
(the `(?: ... )+` of the block pattern); returns the triples and the
remaining lines. -/
def parseTriples : List String → List (String × String × String) × List String
  | [] => ([], [])
  | [a] => ([], [a])
  | [a, b] => ([], [a, b])
  | a :: b :: c :: rest =>
    match tripleAt a b c with
    | some tr =>
      let pr := parseTriples rest
      (tr :: pr.1, pr.2)
    | none => ([], a :: b :: c :: rest)

/-- The finding built from one sub-record of a block
(`{"parameter": param, "type": t.strip(), "title": ..., "payload": ...}`). -/
def blockFinding (param : String) (tr : String × String × String) : Finding :=
  { parameter := some param, type := pyStrip tr.1, title := some (pyStrip tr.2.1),
    payload := some (pyStrip tr.2.2) }

/-- Worker for `extractBlocks`.  Every recursive call strictly shortens the
line list (a successful block consumes the header plus at least three triple
lines), so fuel equal to the number of lines is always sufficient. -/
def extractBlocksAux : Nat → List String → List Finding
  | 0, _ => []
  | Nat.succ _, [] => []
  | Nat.succ fuel, l :: ls =>
    match matchParamHeader l with
    | some param =>
      let pr := parseTriples ls
      if pr.1.isEmpty then extractBlocksAux fuel ls
      else pr.1.map (blockFinding param) ++ extractBlocksAux fuel pr.2
    | none => extractBlocksAux fuel ls

/-- Stage 1 (`re.findall` of the block pattern over the whole buffer). -/
def extractBlocks (out : List String) : List Finding :=
  extractBlocksAux out.length out

/-! ### Stage 2: fallback single-line extraction

Embeds `(\w+) parameter '(.+?)' (is vulnerable.+)`: a word, the literal
` parameter '`, a nonempty lazily-quoted name, then `' ` followed by the
greedy capture, which must start with `is vulnerable` and contain at least
one further character. -/

/-- Try the single-line pattern anchored at the head of `cs`. -/
def matchAltAt (cs : List Char) : Option Finding :=
  let w := cs.takeWhile isWordChar
  if w.isEmpty then none
  else
    let r1 := cs.drop w.length
    if (" parameter ".data ++ [quoteChar]).isPrefixOf r1 then
      let r2 := r1.drop 12
      let name := r2.takeWhile (fun c => c ≠ quoteChar)
      if name.isEmpty then none
      else
        match r2.drop name.length with
        | [] => none
        | _ :: r4 =>
          match r4 with
          | [] => none
          | sp :: r5 =>
            if sp = ' ' ∧ ("is vulnerable".data).isPrefixOf r5 ∧ 13 < r5.length then
              some { parameter := some (String.mk name),
                     type := String.mk w ++ " - " ++ String.mk r5 }
            else none
    else none

/-- Leftmost match of the single-line pattern (regex position scanning). -/
def findAlt : List Char → Option Finding
  | [] => none
  | c :: rest =>
    match matchAltAt (c :: rest) with
    | some f => some f
    | none => findAlt rest

/-- The stage-2 finding produced by one line, if any. -/
def altFinding (line : String) : Option Finding := findAlt line.data

/-- Stage 2 applied to the whole buffer. -/
def stageTwoRaw (out : List String) : List Finding := out.filterMap altFinding

/-! ### Stage 3: database information -/

/-- Match `back-end DBMS: (.+?)\n` inside one line: the capture is the
nonempty remainder of the line after the first occurrence of the marker. -/
def dbmsAt (line : String) : Option String :=
  match findSubIdx line.data ("back-end DBMS: ".data) with
  | none => none
  | some i =>
    let r := line.data.drop (i + 15)
    if r.isEmpty then none else some (String.mk r)

/-- `re.search`: first matching line of the buffer. -/
def findDbms : List String → Option String
  | [] => none
  | l :: ls =>
    match dbmsAt l with
    | some s => some s
    | none => findDbms ls

/-- Stage 3 findings (`{"type": "DBMS", "info": <capture>.strip()}`). -/
def dbmsFindings (out : List String) : List Finding :=
  match findDbms out with
  | some s => [{ type := "DBMS", info := some (pyStrip s) }]
  | none => []

/-! ### Stage 4: critical-line fallback -/

/-- Stage 4: every stored critical line containing `is vulnerable` becomes
`{"type": "CRITICAL", "info": line.replace("[CRITICAL] ", "")}`. -/
def criticalFindings (critical : List String) : List Finding :=
  (critical.filter (fun l => strContains l "is vulnerable")).map
    (fun l => { type := "CRITICAL", info := some (pyReplace l "[CRITICAL] " "") })

/-! ### Stage 5: live-detected-vulnerability merge -/

/-- Stage 5: append each live-detected vulnerability unless some finding
already accumulated (including ones appended earlier in this very loop)
has an equal `parameter` value — the comparison is on `parameter` alone,
mirroring `r.get("parameter") == vuln["parameter"]`. -/
def mergeVulns (results vulns : List Finding) : List Finding :=
  vulns.foldl
    (fun acc v => if acc.any (fun r => r.parameter == v.parameter) then acc else acc ++ [v])
    results

/-! ### The full extraction pipeline -/

/-- Stages 1 and 2 chained: stage 2 contributes only to an empty stage-1
result (`if not results:` in the source). -/
def stageOneTwo (out : List String) : List Finding :=
  let r1 := extractBlocks out
  if r1.isEmpty then stageTwoRaw out else r1

/-- Stages 1–4 (everything before the live merge). -/
def stagesPre (out critical : List String) : List Finding :=
  stageOneTwo out ++ dbmsFindings out ++ criticalFindings critical

/-- The complete result list computed by `parse_scan_results_from_output`
from the buffer, the stored critical lines and the live-detected
vulnerabilities. -/
def computeResults (out critical : List String) (vulns : List Finding) : List Finding :=
  mergeVulns (stagesPre out critical) vulns

/-! ### Option values and command-line construction

A submitted option value is a Python value; `vFloat` carries only the
string Python would render for it, since no code path computes with the
float itself.  `pyIsNum` is `isinstance(value, (int, float))`, which is
true for booleans as well because Python `bool` is a subclass of `int`. -/

inductive PyVal where
  | vBool (b : Bool)
  | vInt (n : Int)
  | vFloat (r : String)
  | vStr (s : String)
deriving DecidableEq, Repr

/-- `isinstance(value, bool)`. -/
def pyIsBool : PyVal → Bool
  | .vBool _ => true
  | _ => false

/-- The truth value of a boolean option (used only after `pyIsBool`). -/
def pyBoolVal : PyVal → Bool
  | .vBool b => b
  | _ => false

/-- `isinstance(value, (int, float))`; true on booleans (`bool <: int`). -/
def pyIsNum : PyVal → Bool
  | .vBool _ => true
  | .vInt _ => true
  | .vFloat _ => true
  | _ => false

/-- `isinstance(value, str)`. -/
def pyIsStr : PyVal → Bool
  | .vStr _ => true
  | _ => false

/-- Python `str(value)` as interpolated by the f-strings of the builder. -/
def pyValStr : PyVal → String
  | .vBool true => "True"
  | .vBool false => "False"
  | .vInt n => toString n
  | .vFloat r => r
  | .vStr s => s

/-- The arguments contributed by one option, following the branch chain of
`run_sqlmap_scan`: a true boolean becomes a bare flag; otherwise any
numeric value (booleans included, hence `False` too) becomes `--key=str(v)`;
otherwise a string value becomes `--key=v`; anything else is dropped. -/
def buildArg (key : String) (v : PyVal) : List String :=
  if pyIsBool v && pyBoolVal v then ["--" ++ key]
  else if pyIsNum v then ["--" ++ key ++ "=" ++ pyValStr v]
  else if pyIsStr v then ["--" ++ key ++ "=" ++ pyValStr v]
  else []

/-- Arguments of all options, in mapping iteration order. -/
def optionArgs : List (String × PyVal) → List String
  | [] => []
  | (k, v) :: rest => buildArg k v ++ optionArgs rest

/-- The full command line `[SQLMAP_PATH, "-u", url, "--batch",
"--disable-coloring"] ++ option arguments`. -/
def buildCmd (url : String) (opts : List (String × PyVal)) : List String :=
  ["sqlmap", "-u", url, "--batch", "--disable-coloring"] ++ optionArgs opts

/-! ### Task records and the scan lifecycle -/

/-- The four values of the Python `ScanStatus` enum. -/
inductive ScanStatus where
  | queued
  | running
  | completed
  | failed
deriving DecidableEq, Repr

/-- The task dictionary `tasks[task_id]`.  Keys that the Python code creates
only later (`critical_lines`, `errors`, ...) are modelled with their empty
default, and keys set once are `Option`s (`none` = key absent or `None`). -/
structure TaskRecord where
  status : ScanStatus
  target_url : String
  options : List (String × PyVal) := []
  command : Option String := none
  output : List String := []
  critical_lines : List String := []
  vulnerabilities : List Finding := []
  errors : List String := []
  results : Option (List Finding) := none
  return_code : Option Int := none
  start_time : Int := 0
  end_time : Option Int := none
  error : Option String := none
deriving DecidableEq, Repr

/-- The record created by `ExecSqlmap` before the background task starts. -/
def createTask (url : String) (opts : List (String × PyVal)) (now : Int) : TaskRecord :=
  { status := ScanStatus.queued, target_url := url, options := opts,
    start_time := now, output := [], results := none }

/-- The first atomic block of `run_sqlmap_scan` (everything before the
`create_subprocess_exec` await): set RUNNING, record the command string,
initialise the buffer, critical lines and live vulnerabilities. -/
def startBlock (url : String) (opts : List (String × PyVal)) (t : TaskRecord) : TaskRecord :=
  { t with status := ScanStatus.running,
           command := some (joinSpace (buildCmd url opts)),
           output := [], critical_lines := [], vulnerabilities := [] }

/-- The `except` handler of `run_sqlmap_scan`: FAILED, error message,
end time (one atomic block, no awaits inside). -/
def failBlock (msg : String) (now : Int) (t : TaskRecord) : TaskRecord :=
  { t with status := ScanStatus.failed, error := some msg, end_time := some now }

/-- Processing of one stdout line inside the read loop: append to the
buffer; store it as critical when it contains `[CRITICAL]`; when it contains
both `is vulnerable` and `parameter` and splits into more than three words,
record a live vulnerability from words 1 and 3.. of the line. -/
def mkLiveVuln (line : String) : Option Finding :=
  if strContains line "is vulnerable" && strContains line "parameter" then
    let parts := pySplit line
    if 3 < parts.length then
      some { parameter := some (stripQuotes (parts.getD 1 "")),
             type := joinSpace (parts.drop 3) }
    else none
  else none

/-- The stdout branch of one loop iteration. -/
def processStdoutLine (line : String) (t : TaskRecord) : TaskRecord :=
  { t with
    output := t.output ++ [line],
    critical_lines :=
      if strContains line "[CRITICAL]" then t.critical_lines ++ [line]
      else t.critical_lines,
    vulnerabilities :=
      match mkLiveVuln line with
      | some v => t.vulnerabilities ++ [v]
      | none => t.vulnerabilities }

/-- The stderr branch of one loop iteration: the line is appended to the
buffer prefixed with `[ERROR] ` and stored in `errors`. -/
def processStderrLine (line : String) (t : TaskRecord) : TaskRecord :=
  { t with output := t.output ++ ["[ERROR] " ++ line],
           errors := t.errors ++ [line] }

/-- `readline` on a stream modelled as the list of its remaining lines:
`none` means end-of-stream (Python `b""`). -/
def readLine : List String → Option String × List String
  | [] => (none, [])
  | l :: ls => (some l, ls)

/-- The read loop of `run_sqlmap_scan`: per iteration one stdout
`readline`, its processing, one stderr `readline`, its processing, then the
`at_eof` check on both streams.  Returns the record states exposed at the
awaits inside the loop together with the final record.  Every iteration
except the terminating one consumes at least one line, so the fuel chosen by
`consumeStreams` is always sufficient. -/
def consumeAux : Nat → List String → List String → TaskRecord → List TaskRecord × TaskRecord
  | 0, _, _, t => ([], t)
  | Nat.succ fuel, so, se, t =>
    let p1 := readLine so
    let t1 := match p1.1 with
              | some l => processStdoutLine l t
              | none => t
    let p2 := readLine se
    let t2 := match p2.1 with
              | some l => processStderrLine l t1
              | none => t1
    if p1.2.isEmpty && p2.2.isEmpty then ([t1, t2], t2)
    else
      let pr := consumeAux fuel p1.2 p2.2 t2
      (t1 :: t2 :: pr.1, pr.2)

/-- The read loop on the full stream contents. -/
def consumeStreams (so se : List String) (t : TaskRecord) : List TaskRecord × TaskRecord :=
  consumeAux (so.length + se.length + 1) so se t

/-- `parse_scan_results_from_output`: compute the results from the buffer,
the critical lines and the live vulnerabilities, and store them on the
record only when nonempty (`if results:`). -/
def applyParse (t : TaskRecord) : TaskRecord :=
  let rs := computeResults t.output t.critical_lines t.vulnerabilities
  if rs.isEmpty then t else { t with results := some rs }

/-- The final atomic block of `run_sqlmap_scan` after `process.wait()`:
on zero exit set COMPLETED and run extraction synchronously; otherwise set
FAILED (no extraction); then record the return code and the end time. -/
def finalizeScan (rc : Int) (now : Int) (t : TaskRecord) : TaskRecord :=
  let t1 :=
    if rc = 0 then applyParse { t with status := ScanStatus.completed }
    else { t with status := ScanStatus.failed }
  { t1 with return_code := some rc, end_time := some now }

/-- How one launched scan can unfold: the spawn fails with an exception
message, or the process runs, delivers the given stdout and stderr lines,
and exits with the given status. -/
inductive ProcOutcome where
  | spawnFail (msg : String)
  | runs (stdoutLines stderrLines : List String) (rc : Int)
deriving DecidableEq, Repr

/-- The sequence of task-record states an external observer can see for one
scan, one entry per suspension point of the coroutine: the QUEUED record
created at submission, the RUNNING record after the first atomic block, the
states exposed inside the read loop, and the terminal record.  On a spawn
failure the exception handler runs directly after the first block. -/
def scanTrace (url : String) (opts : List (String × PyVal)) (o : ProcOutcome)
    (endT : Int) : List TaskRecord :=
  let t0 := createTask url opts 0
  let t1 := startBlock url opts t0
  match o with
  | ProcOutcome.spawnFail msg => [t0, t1, failBlock msg endT t1]
  | ProcOutcome.runs so se rc =>
    let pr := consumeStreams so se t1
    t0 :: t1 :: pr.1 ++ [finalizeScan rc endT pr.2]

/-! ### Status reporting -/

/-- Python `lines[-20:]` generalised: the last `n` lines of a buffer. -/
def lastN (n : Nat) (l : List String) : List String := l.drop (l.length - n)

/-- The status dictionary assembled by `get_scan_status` (the fields the
claims are about; the summary string of COMPLETED tasks and the error-field
refinement of FAILED tasks are reported from the same record and add no
state). -/
structure StatusView where
  status : ScanStatus
  target_url : String
  elapsed_time : Option Int
  results : Option (List Finding)
  partialOutput : Option (List String)
  command : Option String
deriving DecidableEq, Repr

/-- `get_scan_status` as a pure read of the record at query time `now`:
elapsed time is always `now - start_time` (`start_time` is set at creation
and never absent); results are shown only when present and nonempty;
`partial_output` — the last 20 buffer lines — is shown only while RUNNING;
the record itself is read, never written. -/
def getScanStatus (t : TaskRecord) (now : Int) : StatusView :=
  { status := t.status
    target_url := t.target_url
    elapsed_time := some (now - t.start_time)
    results :=
      match t.results with
      | some rs => if rs.isEmpty then none else some rs
      | none => none
    partialOutput :=
      if t.status = ScanStatus.running then some (lastN 20 t.output) else none
    command := t.command }

/-- Adjacent-duplicate collapse, used to state the observed state sequence
of a trace. -/
def dedupAdj : List ScanStatus → List ScanStatus
  | [] => []
  | [a] => [a]
  | a :: b :: rest =>
    if a = b then dedupAdj (b :: rest) else a :: dedupAdj (b :: rest)

/-! ### Concrete fixtures used by counterexamples and witnesses -/

/-- A single-quote as a string, to spell sqlmap sample lines. -/
def strQ : String := String.singleton quoteChar

/-- One canonical structured injection block, as buffer lines. -/
def blockLines : List String :=
  ["Parameter: id (GET)", "    Type: boolean-based blind", "    Title: T1",
   "    Payload: P1"]

/-- The finding extracted from `blockLines`. -/
def fDup : Finding :=
  { parameter := some "id", type := "boolean-based blind", title := some "T1",
    payload := some "P1" }

/-- A canonical stage-2 line: `GET parameter 'id' is vulnerable. Injectable`. -/
def lAlt : String :=
  "GET parameter " ++ strQ ++ "id" ++ strQ ++ " is vulnerable. Injectable"

/-- The finding stage 2 extracts from `lAlt`. -/
def fAlt : Finding :=
  { parameter := some "id", type := "GET - is vulnerable. Injectable" }

/-- A line of the shape `<method> parameter '<name>' <description>` whose
description does not start with `is vulnerable`:
`GET parameter 'id' might be injectable`. -/
def lBad : String :=
  "GET parameter " ++ strQ ++ "id" ++ strQ ++ " might be injectable"

/-- A running task whose buffer already holds extractable output, about to
exit non-zero. -/
def tC1 : TaskRecord :=
  { status := ScanStatus.running, target_url := "u",
    command := some "sqlmap -u u --batch --disable-coloring",
    output := blockLines }

/-- A RUNNING task with a 25-line buffer. -/
def t8run : TaskRecord :=
  { status := ScanStatus.running, target_url := "u",
    output := List.replicate 25 "x" }

/-- The same buffer on a COMPLETED task. -/
def t8done : TaskRecord :=
  { status := ScanStatus.completed, target_url := "u",
    output := List.replicate 25 "x" }

/-- A COMPLETED task that started at 0 and ended at 5. -/
def t9 : TaskRecord :=
  { status := ScanStatus.completed, target_url := "u", start_time := 0,
    end_time := some 5, return_code := some 0 }

/-- The terminal record of the trace for `blockLines` stdout and a zero
exit status (used to witness the COMPLETED-implies-extracted invariant). -/
def sFinal : TaskRecord :=
  { status := ScanStatus.completed, target_url := "u",
    command := some "sqlmap -u u --batch --disable-coloring",
    output := blockLines, results := some [fDup], return_code := some 0,
    end_time := some 5 }

/-! ## Supporting lemmas -/

theorem mem_optionArgs {key : String} {v : PyVal} :
    ∀ {opts : List (String × PyVal)}, (key, v) ∈ opts →
      ∀ {a : String}, a ∈ buildArg key v → a ∈ optionArgs opts := by
  intro opts
  induction opts with
  | nil => intro h; cases h
  | cons kv rest ih =>
    intro h a ha
    rcases List.mem_cons.mp h with h | h
    · cases kv
      cases h
      exact List.mem_append.mpr (Or.inl ha)
    · exact List.mem_append.mpr (Or.inr (ih h ha))

theorem applyParse_fields (t : TaskRecord) :
    (applyParse t).status = t.status ∧ (applyParse t).command = t.command ∧
      (applyParse t).output = t.output ∧
      (applyParse t).critical_lines = t.critical_lines ∧
      (applyParse t).vulnerabilities = t.vulnerabilities := by
  simp only [applyParse]
  split <;> exact ⟨rfl, rfl, rfl, rfl, rfl⟩

theorem applyParse_results_of_ne {t : TaskRecord}
    (h : computeResults t.output t.critical_lines t.vulnerabilities ≠ []) :
    (applyParse t).results =
      some (computeResults t.output t.critical_lines t.vulnerabilities) := by
  simp only [applyParse]
  rw [if_neg (by simpa [List.isEmpty_iff] using h)]

/-! ## Claim theorems -/

/-- C1, counterexample: a task whose buffer holds a full injection block and
whose process exits with status 1 ends FAILED with the exit status recorded,
but its `results` stay unset even though running the extraction stages over
that buffer would produce findings — extraction does **not** run on the
non-zero-exit path. -/
theorem c1_counterexample :
    (finalizeScan 1 7 tC1).status = ScanStatus.failed ∧
    (finalizeScan 1 7 tC1).return_code = some 1 ∧
    (finalizeScan 1 7 tC1).results = none ∧
    computeResults tC1.output tC1.critical_lines tC1.vulnerabilities ≠ [] := by
  decide

/-- C1, amended: on a non-zero exit status the task transitions to FAILED
with the exit status and end time recorded and every other field — buffer,
critical lines, live-detected findings, results — preserved unchanged; the
extraction stages are not run. -/
theorem c1_nonzero_exit_no_extraction (rc now : Int) (t : TaskRecord)
    (h : rc ≠ 0) :
    finalizeScan rc now t =
      { t with status := ScanStatus.failed, return_code := some rc,
               end_time := some now } := by
  simp only [finalizeScan]
  rw [if_neg h]

theorem c1_nonzero_exit_no_extraction_witness :
    finalizeScan 1 7 tC1 =
      { tC1 with status := ScanStatus.failed, return_code := some 1,
                 end_time := some 7 } :=
  c1_nonzero_exit_no_extraction 1 7 tC1 (by decide)

/-- C6: extraction is idempotent — applying
`parse_scan_results_from_output` a second time to a task (same buffer, same
critical lines, same live-detected vulnerabilities) changes nothing. -/
theorem c6_extraction_idempotent (t : TaskRecord) :
    applyParse (applyParse t) = applyParse t := by
  simp only [applyParse]
  by_cases h : (computeResults t.output t.critical_lines t.vulnerabilities).isEmpty
  · simp [h]
  · simp [h]

/-- C8: while a task is RUNNING the status query exposes `partial_output`,
which is exactly the last 20 lines of the buffer — hence at most 20 lines
and a suffix of the untouched stored buffer (`get_scan_status` only reads
the record) — and in any other state `partial_output` is absent. -/
theorem c8_partial_output (t : TaskRecord) (now : Int) :
    (t.status = ScanStatus.running →
      (getScanStatus t now).partialOutput = some (lastN 20 t.output) ∧
      (lastN 20 t.output).length ≤ 20 ∧ lastN 20 t.output <:+ t.output) ∧
    (t.status ≠ ScanStatus.running →
      (getScanStatus t now).partialOutput = none) := by
  constructor
  · intro h
    refine ⟨by simp [getScanStatus, h], ?_, List.drop_suffix _ _⟩
    simp only [lastN, List.length_drop]
    omega
  · intro h
    simp [getScanStatus, h]

theorem c8_partial_output_witness :
    (getScanStatus t8run 7).partialOutput = some (List.replicate 20 "x") ∧
    (getScanStatus t8done 7).partialOutput = none := by
  constructor
  · exact ((c8_partial_output t8run 7).1 rfl).1.trans (by decide)
  · exact (c8_partial_output t8done 7).2 (by decide)

/-- C9, counterexample: for the COMPLETED task `t9` with
`start_time = 0` and `end_time = 5`, querying at time 100 reports an
elapsed time of 100 — computed from the current time, not from the
recorded `end_time` as the claim states (which would give 5). -/
theorem c9_counterexample :
    (getScanStatus t9 100).elapsed_time = some 100 ∧
    t9.end_time = some 5 ∧ t9.status = ScanStatus.completed ∧
    (100 : Int) ≠ 5 - 0 := by
  decide

/-- C9, amended: the elapsed time reported by the status query is always
`now - start_time`, for tasks in any state; the recorded `end_time` has no
influence on it. -/
theorem c9_elapsed_from_current_time (t : TaskRecord) (now : Int) :
    (getScanStatus t now).elapsed_time = some (now - t.start_time) ∧
    (∀ e : Int, (getScanStatus { t with end_time := some e } now).elapsed_time
        = (getScanStatus t now).elapsed_time) :=
  ⟨rfl, fun _ => rfl⟩

/-- C10: an option whose value is the boolean `false` still contributes a
`--name=False` pair to the command line: the false flag fails the
boolean-true branch but, since Python `bool` is a subclass of `int`,
satisfies the numeric branch, which renders `str(False) = "False"`. -/
theorem c10_bool_false_option (url : String) (opts : List (String × PyVal))
    (key : String) (h : (key, PyVal.vBool false) ∈ opts) :
    ("--" ++ key ++ "=" ++ "False") ∈ buildCmd url opts ∧
    buildArg key (PyVal.vBool false) = ["--" ++ key ++ "=" ++ "False"] ∧
    (pyIsBool (PyVal.vBool false) && pyBoolVal (PyVal.vBool false)) = false ∧
    pyIsNum (PyVal.vBool false) = true := by
  refine ⟨?_, rfl, rfl, rfl⟩
  exact List.mem_append.mpr
    (Or.inr (mem_optionArgs h (by simp [buildArg, pyIsBool, pyBoolVal, pyIsNum, pyValStr])))

theorem c10_bool_false_option_witness :
    ("--" ++ "risk" ++ "=" ++ "False") ∈
      buildCmd "http://t" [("risk", PyVal.vBool false)] :=
  (c10_bool_false_option "http://t" [("risk", PyVal.vBool false)] "risk"
    (by decide)).1

theorem mergeVulns_spec (vs : List Finding) :
    ∀ rs : List Finding, ∃ ws, mergeVulns rs vs = rs ++ ws ∧
      ∀ w ∈ ws, ∀ r ∈ rs, r.parameter ≠ w.parameter := by
  induction vs with
  | nil => intro rs; exact ⟨[], by simp [mergeVulns], by simp⟩
  | cons v vs ih =>
    intro rs
    by_cases h : rs.any (fun r => r.parameter == v.parameter)
    · obtain ⟨ws, hws, hsep⟩ := ih rs
      refine ⟨ws, ?_, hsep⟩
      simp only [mergeVulns, List.foldl_cons] at hws ⊢
      rw [if_pos h]
      exact hws
    · obtain ⟨ws, hws, hsep⟩ := ih (rs ++ [v])
      refine ⟨v :: ws, ?_, ?_⟩
      · simp only [mergeVulns, List.foldl_cons] at hws ⊢
        rw [if_neg h, hws, List.append_assoc]
        rfl
      · intro w hw r hr
        rcases List.mem_cons.mp hw with hw | hw
        · subst hw
          intro heq
          exact h (List.any_eq_true.mpr ⟨r, hr, beq_iff_eq.mpr heq⟩)
        · exact hsep w hw r (List.mem_append.mpr (Or.inl hr))

/-- C2, counterexample: a buffer holding the same structured injection
block twice makes stage 1 emit two findings with identical
`(parameter, type)` — the pipeline never deduplicates on that key, so the
final list holds both. -/
theorem c2_counterexample :
    computeResults (blockLines ++ blockLines) [] [] = [fDup, fDup] ∧
    fDup.parameter = some "id" ∧ fDup.type = "boolean-based blind" := by
  decide

/-- C2, amended: the only deduplication is performed by the final
live-vulnerability merge, and it keys on `parameter` alone: every finding
that stage 5 adds on top of the stages-1–4 list has a `parameter` different
from that of every stages-1–4 finding (first occurrence wins).  Stages 1–4
themselves append without any deduplication, so duplicates of the same
`(parameter, type)` can survive (see the counterexample). -/
theorem c2_dedup_on_parameter_only (out critical : List String)
    (vulns : List Finding) :
    ∃ ws, computeResults out critical vulns = stagesPre out critical ++ ws ∧
      ∀ w ∈ ws, ∀ r ∈ stagesPre out critical, r.parameter ≠ w.parameter :=
  mergeVulns_spec vulns (stagesPre out critical)

theorem c2_dedup_on_parameter_only_witness :
    ∃ ws, computeResults blockLines [] [fAlt] =
        stagesPre blockLines [] ++ ws ∧
      ∀ w ∈ ws, ∀ r ∈ stagesPre blockLines [], r.parameter ≠ w.parameter :=
  c2_dedup_on_parameter_only blockLines [] [fAlt]

theorem matchAltAt_shape {cs : List Char} {f : Finding}
    (h : matchAltAt cs = some f) :
    ∃ m p rest, rest ≠ "" ∧
      f = { parameter := some p,
            type := m ++ " - " ++ ("is vulnerable" ++ rest) } := by
  simp only [matchAltAt] at h
  split at h
  · exact absurd h (by simp)
  · split at h
    · split at h
      · exact absurd h (by simp)
      · split at h
        · exact absurd h (by simp)
        · split at h
          · exact absurd h (by simp)
          · rename_i sp r5 _
            split at h
            · rename_i hcond
              obtain ⟨hsp, hpre, hlen⟩ := hcond
              obtain ⟨suf, hsuf⟩ :=
                (List.isPrefixOf_iff_prefix.mp hpre)
              cases h
              refine ⟨String.mk (cs.takeWhile isWordChar),
                String.mk ((cs.drop (cs.takeWhile isWordChar).length).drop 12
                  |>.takeWhile (fun c => c ≠ quoteChar)),
                String.mk suf, ?_, ?_⟩
              · have hne : suf ≠ [] := by
                  intro hnil
                  rw [hnil, List.append_nil] at hsuf
                  rw [← hsuf] at hlen
                  exact absurd hlen (by decide)
                intro hc
                exact hne (by simpa using congrArg String.data hc)
              · have : String.mk r5 = "is vulnerable" ++ String.mk suf := by
                  rw [← hsuf]
                  rfl
                simp [this]
            · exact absurd h (by simp)
    · exact absurd h (by simp)

theorem findAlt_shape {cs : List Char} {f : Finding}
    (h : findAlt cs = some f) :
    ∃ m p rest, rest ≠ "" ∧
      f = { parameter := some p,
            type := m ++ " - " ++ ("is vulnerable" ++ rest) } := by
  induction cs with
  | nil => simp [findAlt] at h
  | cons c rest ih =>
    rw [findAlt] at h
    cases hm : matchAltAt (c :: rest) with
    | some g =>
      rw [hm] at h
      cases h
      exact matchAltAt_shape hm
    | none =>
      rw [hm] at h
      exact ih h

/-- C7, counterexample: `lBad` has the shape
`<method> parameter '<name>' <description>` with description
`might be injectable`, yet neither stage 2 nor the whole pipeline produces
any finding for it — the code's pattern additionally requires the
description to start with `is vulnerable` (and to carry at least one more
character), which the claim does not say. -/
theorem c7_counterexample :
    computeResults [lBad] [] [] = [] ∧ stageTwoRaw [lBad] = [] ∧
    altFinding lBad = none := by
  decide

/-- C7, amended: stage 2 contributes only when stage 1 produced nothing
(and then the combined stage-1/2 result is exactly the stage-2 findings);
and every stage-2 finding comes from a line
`<method> parameter '<name>' <description>` whose description starts with
`is vulnerable` followed by at least one further character, the finding
being `{parameter: <name>, type: "<method> - <description>"}`. -/
theorem c7_fallback_stage (out : List String) :
    (extractBlocks out ≠ [] → stageOneTwo out = extractBlocks out) ∧
    (extractBlocks out = [] → stageOneTwo out = stageTwoRaw out) ∧
    (∀ l ∈ out, ∀ f : Finding, altFinding l = some f →
      ∃ m p rest, rest ≠ "" ∧
        f = { parameter := some p,
              type := m ++ " - " ++ ("is vulnerable" ++ rest) }) := by
  refine ⟨?_, ?_, ?_⟩
  · intro h
    simp [stageOneTwo, List.isEmpty_iff, h]
  · intro h
    simp [stageOneTwo, List.isEmpty_iff, h]
  · intro l _ f hf
    exact findAlt_shape hf

theorem c7_fallback_stage_witness :
    stageOneTwo blockLines = extractBlocks blockLines ∧
    stageOneTwo [lAlt] = stageTwoRaw [lAlt] ∧
    (∃ m p rest, rest ≠ "" ∧
      fAlt = { parameter := some p,
               type := m ++ " - " ++ ("is vulnerable" ++ rest) }) := by
  refine ⟨(c7_fallback_stage blockLines).1 (by decide),
    (c7_fallback_stage [lAlt]).2.1 (by decide), ?_⟩
  exact (c7_fallback_stage [lAlt]).2.2 lAlt (by decide) fAlt (by decide)

theorem consumeAux_preserves (fuel : Nat) :
    ∀ (so se : List String) (t : TaskRecord),
      ((consumeAux fuel so se t).2.status = t.status ∧
        (consumeAux fuel so se t).2.command = t.command) ∧
      ∀ s ∈ (consumeAux fuel so se t).1,
        s.status = t.status ∧ s.command = t.command := by
  induction fuel with
  | zero =>
    intro so se t
    simp [consumeAux]
  | succ fuel ih =>
    intro so se t
    have hstep : ∀ (lo : Option String) (u : TaskRecord),
        (match lo with
         | some l => processStdoutLine l u
         | none => u).status = u.status ∧
        (match lo with
         | some l => processStdoutLine l u
         | none => u).command = u.command := by
      intro lo u; cases lo <;> exact ⟨rfl, rfl⟩
    have hstep2 : ∀ (lo : Option String) (u : TaskRecord),
        (match lo with
         | some l => processStderrLine l u
         | none => u).status = u.status ∧
        (match lo with
         | some l => processStderrLine l u
         | none => u).command = u.command := by
      intro lo u; cases lo <;> exact ⟨rfl, rfl⟩
    simp only [consumeAux]
    split
    · rename_i hcond
      constructor
      · exact ⟨((hstep2 _ _).1).trans (hstep _ _).1,
          ((hstep2 _ _).2).trans (hstep _ _).2⟩
      · intro s hs
        rcases List.mem_cons.mp hs with hs | hs
        · subst hs
          exact ⟨(hstep _ _).1, (hstep _ _).2⟩
        · rcases List.mem_cons.mp hs with hs | hs
          · subst hs
            exact ⟨((hstep2 _ _).1).trans (hstep _ _).1,
              ((hstep2 _ _).2).trans (hstep _ _).2⟩
          · cases hs
    · rename_i hcond
      have hme := ih (readLine so).2 (readLine se).2
        (match (readLine se).1 with
         | some l => processStderrLine l
             (match (readLine so).1 with
              | some l2 => processStdoutLine l2 t
              | none => t)
         | none =>
           (match (readLine so).1 with
            | some l2 => processStdoutLine l2 t
            | none => t))
      constructor
      · exact ⟨hme.1.1.trans (((hstep2 _ _).1).trans (hstep _ _).1),
          hme.1.2.trans (((hstep2 _ _).2).trans (hstep _ _).2)⟩
      · intro s hs
        rcases List.mem_cons.mp hs with hs | hs
        · subst hs
          exact ⟨(hstep _ _).1, (hstep _ _).2⟩
        · rcases List.mem_cons.mp hs with hs | hs
          · subst hs
            exact ⟨((hstep2 _ _).1).trans (hstep _ _).1,
              ((hstep2 _ _).2).trans (hstep _ _).2⟩
          · have hm := hme.2 s hs
            exact ⟨hm.1.trans (((hstep2 _ _).1).trans (hstep _ _).1),
              hm.2.trans (((hstep2 _ _).2).trans (hstep _ _).2)⟩

theorem finalizeScan_fields (rc now : Int) (t : TaskRecord) :
    (finalizeScan rc now t).status =
      (if rc = 0 then ScanStatus.completed else ScanStatus.failed) ∧
    (finalizeScan rc now t).command = t.command ∧
    (finalizeScan rc now t).output = t.output ∧
    (finalizeScan rc now t).critical_lines = t.critical_lines ∧
    (finalizeScan rc now t).vulnerabilities = t.vulnerabilities := by
  simp only [finalizeScan]
  split
  · have ha := applyParse_fields { t with status := ScanStatus.completed }
    exact ⟨ha.1, ha.2.1, ha.2.2.1, ha.2.2.2.1, ha.2.2.2.2⟩
  · exact ⟨rfl, rfl, rfl, rfl, rfl⟩

theorem finalizeScan_results_zero (now : Int) (t : TaskRecord)
    (h : computeResults t.output t.critical_lines t.vulnerabilities ≠ []) :
    (finalizeScan 0 now t).results =
      some (computeResults t.output t.critical_lines t.vulnerabilities) := by
  simp only [finalizeScan, if_pos rfl]
  show (applyParse { t with status := ScanStatus.completed }).results = _
  exact applyParse_results_of_ne h

theorem dedupAdj_cons_of_ne {a b : ScanStatus} {rest : List ScanStatus}
    (h : a ≠ b) : dedupAdj (a :: b :: rest) = a :: dedupAdj (b :: rest) := by
  simp [dedupAdj, h]

theorem dedupAdj_cons_dup (a : ScanStatus) (rest : List ScanStatus) :
    dedupAdj (a :: a :: rest) = dedupAdj (a :: rest) := by
  simp [dedupAdj]

theorem dedupAdj_const_append {l : List ScanStatus} {x z : ScanStatus}
    (hl : ∀ a ∈ l, a = x) (hxz : x ≠ z) :
    dedupAdj (x :: (l ++ [z])) = [x, z] := by
  induction l with
  | nil => simp [dedupAdj, hxz]
  | cons a l ih =>
    have ha : a = x := hl a (List.mem_cons_self a l)
    subst ha
    show dedupAdj (a :: a :: (l ++ [z])) = [a, z]
    rw [dedupAdj_cons_dup]
    exact ih (fun b hb => hl b (List.mem_cons_of_mem a hb))

/-- C3: the de-duplicated sequence of task states exposed at the
suspension points of one scan — for any option mapping, any stream
contents and any exit status, and also for a spawn failure — is exactly
`QUEUED, RUNNING, COMPLETED` or `QUEUED, RUNNING, FAILED`: no state is
skipped (a spawn failure yields `QUEUED, RUNNING, FAILED`, passing through
RUNNING), and no earlier state reappears; any sequence of status polls
observes a subsequence of this trace. -/
theorem c3_state_machine (url : String) (opts : List (String × PyVal))
    (o : ProcOutcome) (endT : Int) :
    dedupAdj ((scanTrace url opts o endT).map TaskRecord.status) =
        [ScanStatus.queued, ScanStatus.running, ScanStatus.completed] ∨
    dedupAdj ((scanTrace url opts o endT).map TaskRecord.status) =
        [ScanStatus.queued, ScanStatus.running, ScanStatus.failed] := by
  cases o with
  | spawnFail msg =>
    right
    rfl
  | runs so se rc =>
    have hpres := consumeAux_preserves (so.length + se.length + 1) so se
      (startBlock url opts (createTask url opts 0))
    have hmap : (scanTrace url opts (ProcOutcome.runs so se rc) endT).map
        TaskRecord.status =
        ScanStatus.queued :: (ScanStatus.running ::
          (((consumeStreams so se
              (startBlock url opts (createTask url opts 0))).1.map
                TaskRecord.status) ++
            [(finalizeScan rc endT (consumeStreams so se
              (startBlock url opts (createTask url opts 0))).2).status])) := by
      simp only [scanTrace, consumeStreams, List.cons_append, List.nil_append,
        List.map_cons, List.map_append, List.map_nil]
      rfl
    rw [hmap]
    have hall : ∀ a ∈ (consumeStreams so se
        (startBlock url opts (createTask url opts 0))).1.map TaskRecord.status,
        a = ScanStatus.running := by
      intro a ha
      obtain ⟨s, hs, hsa⟩ := List.mem_map.mp ha
      rw [← hsa]
      exact (hpres.2 s hs).1
    have hfin : (finalizeScan rc endT (consumeStreams so se
        (startBlock url opts (createTask url opts 0))).2).status =
        (if rc = 0 then ScanStatus.completed else ScanStatus.failed) :=
      (finalizeScan_fields rc endT _).1
    by_cases hrc : rc = 0
    · left
      rw [hfin, if_pos hrc]
      have hd := dedupAdj_const_append (x := ScanStatus.running)
        (z := ScanStatus.completed) hall (by decide)
      rw [dedupAdj_cons_of_ne (by decide), hd]
    · right
      rw [hfin, if_neg hrc]
      have hd := dedupAdj_const_append (x := ScanStatus.running)
        (z := ScanStatus.failed) hall (by decide)
      rw [dedupAdj_cons_of_ne (by decide), hd]

/-- C5, counterexample: a process that exits 0 having produced no output at
all ends the trace in a state observable as COMPLETED whose `results` are
still unset (`None`): when extraction finds nothing, `results` is never
populated, so "COMPLETED with findings unset" is observable. -/
theorem c5_counterexample :
    ∃ s ∈ scanTrace "u" [] (ProcOutcome.runs [] [] 0) 3,
      s.status = ScanStatus.completed ∧ s.results = none := by
  decide

/-- C5, amended: in every observable state of a scan, `command_line` is set
whenever the state is not QUEUED; and whenever the state is COMPLETED,
extraction has already run as part of the transition, so if the extraction
pipeline yields any findings for the task's data, those findings are
already stored in `results` (COMPLETED is never observable with extraction
pending; it is observable with `results` unset exactly when extraction
yields nothing, see the counterexample). -/
theorem c5_completed_implies_extracted (url : String)
    (opts : List (String × PyVal)) (o : ProcOutcome) (endT : Int) :
    ∀ s ∈ scanTrace url opts o endT,
      (s.status ≠ ScanStatus.queued → s.command ≠ none) ∧
      (s.status = ScanStatus.completed →
        computeResults s.output s.critical_lines s.vulnerabilities ≠ [] →
        s.results =
          some (computeResults s.output s.critical_lines s.vulnerabilities)) := by
  cases o with
  | spawnFail msg =>
    intro s hs
    rcases List.mem_cons.mp hs with hs | hs
    · subst hs
      exact ⟨fun h => absurd rfl h, fun h => by simp [createTask] at h⟩
    · rcases List.mem_cons.mp hs with hs | hs
      · subst hs
        exact ⟨fun _ => by simp [startBlock],
          fun h => by simp [startBlock] at h⟩
      · rcases List.mem_cons.mp hs with hs | hs
        · subst hs
          exact ⟨fun _ => by simp [failBlock, startBlock],
            fun h => by simp [failBlock] at h⟩
        · cases hs
  | runs so se rc =>
    intro s hs
    have hpres := consumeAux_preserves (so.length + se.length + 1) so se
      (startBlock url opts (createTask url opts 0))
    rcases List.mem_cons.mp hs with hs | hs
    · subst hs
      exact ⟨fun h => absurd rfl h, fun h => by simp [createTask] at h⟩
    · rcases List.mem_cons.mp hs with hs | hs
      · subst hs
        exact ⟨fun _ => by simp [startBlock],
          fun h => by simp [startBlock] at h⟩
      · rcases List.mem_append.mp hs with hs | hs
        · have hm := hpres.2 s hs
          refine ⟨fun _ => ?_, fun h => ?_⟩
          · rw [hm.2]
            simp [startBlock]
          · rw [hm.1] at h
            simp [startBlock] at h
        · rcases List.mem_singleton.mp hs with hs
          subst hs
          set t2 := (consumeStreams so se
            (startBlock url opts (createTask url opts 0))).2 with ht2
          have hcmd : t2.command =
              (startBlock url opts (createTask url opts 0)).command :=
            hpres.1.2
          have hff := finalizeScan_fields rc endT t2
          refine ⟨fun _ => ?_, fun hc hne => ?_⟩
          · rw [hff.2.1, hcmd]
            simp [startBlock]
          · have hrc : rc = 0 := by
              by_contra hrc
              rw [hff.1, if_neg hrc] at hc
              exact absurd hc (by decide)
            subst hrc
            rw [hff.2.2.1, hff.2.2.2.1, hff.2.2.2.2] at hne ⊢
            exact finalizeScan_results_zero endT t2 hne

theorem c5_completed_implies_extracted_witness :
    sFinal.command ≠ none ∧
    sFinal.results =
      some (computeResults sFinal.output sFinal.critical_lines
        sFinal.vulnerabilities) := by
  have h := c5_completed_implies_extracted "u" []
    (ProcOutcome.runs blockLines [] 0) 5 sFinal (by decide)
  exact ⟨h.1 (by decide), h.2 (by decide) (by decide)⟩

end Sqlmap
